import Mathlib

/-!
Verification development for the facet-discovery & prompt-compilation
pipeline (repository `funnel`).

The Python sources under `src/app` are shallowly embedded below:

* `app/core/facet_discovery.py` — the raw, dynamically-typed facet
  materialisation (`_to_facet`, `_parse_llm_json`, `_parse_llm_payload`,
  the post-parse part of `discover_round1_llm` / `discover_round2_llm`)
  is embedded over a JSON value type `JVal`; Python runtime errors
  (`TypeError`, `AttributeError`) are made explicit as `Except PyErr`.
  The network call `llm_client.generate` is external (spec §6 treats it
  as an opaque text-in/text-out call), so the model-output string is
  represented by its decoded JSON value: `some v` when `json.loads`
  (or the brace-substring retry) succeeds with value `v`, `none` when
  both attempts fail.
* the deterministic pipeline (domain router, deterministic discovery,
  ranker, refine route, catalog scoring, trace store) is embedded over
  schema-typed records mirroring the declared data model (§3): pack
  files and request rows are well-typed JSON documents, so their
  fields carry the declared types.

Python string/containment semantics are modelled explicitly:
`pyLower` (ASCII lowercasing, the only case-folding the embedded
comparisons need), `substrB` (the `in` substring test), and explicit
truthiness tests where the source branches on truthiness.
-/

namespace Funnel

/-- Python `str.lower()` restricted to ASCII case folding. -/
def pyLower (s : String) : String := ⟨s.data.map Char.toLower⟩

/-- Python substring containment `needle in hay` on strings. -/
def substrB (needle hay : String) : Bool :=
  hay.data.tails.any (fun t => needle.data.isPrefixOf t)

/-- Python truthiness of an optional string (`None` and `""` are falsy). -/
def optStrTruthy : Option String → Bool
  | none => false
  | some s => s != ""

/-- Python `str.strip()` (drop leading and trailing whitespace). -/
def pyStrip (s : String) : String :=
  ⟨((s.data.dropWhile Char.isWhitespace).reverse.dropWhile Char.isWhitespace).reverse⟩

/-- Decoded JSON values, as produced by `json.loads`. `null` doubles as
Python `None` (which is what `json.loads` decodes `null` to). -/
inductive JVal where
  | null
  | bool (b : Bool)
  | num (n : Int)
  | str (s : String)
  | arr (xs : List JVal)
  | obj (kvs : List (String × JVal))

/-- A decoded JSON object: its key/value pairs (keys are unique after
`json.loads`, which keeps the last duplicate). -/
abbrev JObj := List (String × JVal)

/-- Python runtime errors that the dynamically-typed code can raise. -/
inductive PyErr where
  | typeError
  | attributeError
  deriving DecidableEq

/-- Python truthiness of a decoded JSON value. -/
def truthy : JVal → Bool
  | .null => false
  | .bool b => b
  | .num n => n != 0
  | .str s => s != ""
  | .arr xs => !xs.isEmpty
  | .obj kvs => !kvs.isEmpty

mutual

/-- Python `repr` of a decoded JSON value (used by `str` on containers). -/
def pyRepr : JVal → String
  | .null => "None"
  | .bool true => "True"
  | .bool false => "False"
  | .num n => toString n
  | .str s => "\x27" ++ s ++ "\x27"
  | .arr xs => "[" ++ pyReprList xs ++ "]"
  | .obj kvs => "\x7b" ++ pyReprObj kvs ++ "\x7d"
termination_by structural v => v

/-- Comma-joined reprs of a list's elements. -/
def pyReprList : List JVal → String
  | [] => ""
  | [x] => pyRepr x
  | x :: y :: rest => pyRepr x ++ ", " ++ pyReprList (y :: rest)
termination_by structural l => l

/-- Comma-joined `'key': value` reprs of a dict's items. -/
def pyReprObj : List (String × JVal) → String
  | [] => ""
  | [(k, v)] => "\x27" ++ k ++ "\x27: " ++ pyRepr v
  | (k, v) :: y :: rest =>
      "\x27" ++ k ++ "\x27: " ++ pyRepr v ++ ", " ++ pyReprObj (y :: rest)
termination_by structural l => l

end

/-- Python `str()` of a decoded JSON value (`str` is the identity on
strings and agrees with `repr` on every other decoded value). -/
def pyStr : JVal → String
  | .str s => s
  | v => pyRepr v

/-- Python `data.get(key, default)` on a decoded dict: the stored value
when the key is present (even when it is `null`), else the default. -/
def pyGetD (kvs : JObj) (k : String) (d : JVal) : JVal :=
  (List.lookup k kvs).getD d

/-- Python `data.get(key)` (default `None`). -/
def pyGet (kvs : JObj) (k : String) : JVal :=
  pyGetD kvs k JVal.null

/-- Python iteration over a decoded JSON value: lists yield their
elements, strings their characters, dicts their keys; scalars raise
`TypeError`. -/
def pyIter : JVal → Except PyErr (List JVal)
  | .arr xs => .ok xs
  | .str s => .ok (s.data.map (fun c => JVal.str ⟨[c]⟩))
  | .obj kvs => .ok (kvs.map (fun kv => JVal.str kv.1))
  | _ => .error PyErr.typeError

/-- A character kept by `_slugify`'s regex class `[a-z0-9]`. -/
def isSlugChar (c : Char) : Bool :=
  (97 ≤ c.toNat && c.toNat ≤ 122) || (48 ≤ c.toNat && c.toNat ≤ 57)

/-- Collapse each consecutive run of `'_'` into a single `'_'`. -/
def squeezeUnderscores : List Char → List Char
  | [] => []
  | [c] => [c]
  | a :: b :: rest =>
      if a == '_' && b == '_' then squeezeUnderscores (b :: rest)
      else a :: squeezeUnderscores (b :: rest)

/-- `FacetDiscoveryEngine._slugify`: lowercase, replace each run of
characters outside `[a-z0-9]` by one `'_'`, strip `'_'` from both ends,
fall back to `"facet"` when nothing remains. -/
def slugify (text : String) : String :=
  let lowered := (pyLower text).data
  let replaced := lowered.map (fun c => if isSlugChar c then c else '_')
  let squeezed := squeezeUnderscores replaced
  let stripped :=
    ((squeezed.dropWhile (· == '_')).reverse.dropWhile (· == '_')).reverse
  if stripped.isEmpty then "facet" else ⟨stripped⟩

/-- The `Choice` dataclass: `str`-converted value and subchoices. -/
structure Choice where
  value : String
  subchoices : List String
  deriving DecidableEq

/-- The `Facet` dataclass as built by the dynamically-typed `_to_facet`:
fields copied from arbitrary decoded JSON keep their decoded value. -/
structure FacetD where
  id : JVal
  title : JVal
  question : JVal
  keywords : JVal
  suggested_values : List JVal
  choices : List Choice
  default_value : JVal

/-- The `FacetCandidate` dataclass over dynamically-typed facets
(`reason` is whatever truthy JSON value the model supplied, or an
engine-built string). -/
structure CandidateD where
  facet : FacetD
  reason : JVal

/-- Line 271 of `_to_facet`:
`facet_id = data.get("id") or self._slugify(data.get("title", "facet"))`.
A non-string title reaches `str.lower()` inside `_slugify` and raises
`AttributeError`. -/
def facetIdD (data : JObj) : Except PyErr JVal :=
  let idv := pyGet data ("id")
  if truthy idv then .ok idv
  else
    match pyGetD data ("title") (JVal.str ("facet")) with
    | .str t => .ok (JVal.str (slugify t))
    | _ => .error PyErr.attributeError

/-- One iteration of `_to_facet`'s choices loop: dict-shaped entries
with a truthy `value` produce a `Choice` (value and subchoices pushed
through `str`, falsy subchoices dropped); other entries are skipped. -/
def extractChoice (item : JVal) : Except PyErr (Option Choice) :=
  match item with
  | .obj kvs =>
      let v := pyGet kvs ("value")
      if truthy v then do
        let subs ← pyIter (pyGetD kvs ("subchoices") (JVal.arr []))
        pure (some { value := pyStr v, subchoices := (subs.filter truthy).map pyStr })
      else pure none
  | _ => pure none

/-- The choices-building loop of `_to_facet` (lines 272-281). -/
def buildChoices (data : JObj) : Except PyErr (List Choice) := do
  let items ← pyIter (pyGetD data ("choices") (JVal.arr []))
  let opts ← items.mapM extractChoice
  pure opts.reduceOption

/-- Lines 283-284 of `_to_facet`: append the `"all options"` sentinel
when at least one concrete choice exists and none already matches the
sentinel case-insensitively. -/
def addSentinelChoices (cs : List Choice) : List Choice :=
  if !cs.isEmpty && cs.all (fun c => pyLower c.value != "all options") then
    cs ++ [{ value := "all options", subchoices := [] }]
  else cs

/-- Python `all(val.lower() != "all options" for val in suggested)`:
sequential, short-circuiting, raising `AttributeError` at the first
non-string value it has to lowercase. -/
def allNotSentinelJ : List JVal → Except PyErr Bool
  | [] => .ok true
  | JVal.str s :: rest =>
      if pyLower s == "all options" then .ok false else allNotSentinelJ rest
  | _ :: _ => .error PyErr.attributeError

/-- Lines 286-288 of `_to_facet`: `suggested_values` defaults to the
(sentinel-appended) choice values when absent or empty. -/
def defaultSuggested (choices2 : List Choice) (sug0 : List JVal) : List JVal :=
  if !choices2.isEmpty && sug0.isEmpty then
    choices2.map (fun c => JVal.str c.value)
  else sug0

/-- Lines 289-290 of `_to_facet`: append the sentinel to a nonempty,
sentinel-free suggested list (the `all(...)` scan can raise on
non-string entries). -/
def appendSentinelVals (sug1 : List JVal) : Except PyErr (List JVal) :=
  if sug1.isEmpty then pure sug1
  else do
    let ok ← allNotSentinelJ sug1
    pure (if ok then sug1 ++ [JVal.str ("all options")] else sug1)

/-- Lines 286-290 of `_to_facet` combined. -/
def buildSuggested (data : JObj) (choices2 : List Choice) :
    Except PyErr (List JVal) := do
  let sug0 ← pyIter (pyGetD data ("suggested_values") (JVal.arr []))
  appendSentinelVals (defaultSuggested choices2 sug0)

/-- `FacetDiscoveryEngine._to_facet` over an arbitrary decoded dict. -/
def toFacetD (data : JObj) : Except PyErr FacetD := do
  let fid ← facetIdD data
  let cs ← buildChoices data
  let cs2 := addSentinelChoices cs
  let sug ← buildSuggested data cs2
  pure {
    id := fid
    title := pyGetD data ("title") fid
    question := pyGetD data ("question") (JVal.str ("Choose an option"))
    keywords := pyGetD data ("keywords") (JVal.arr [])
    suggested_values := sug
    choices := cs2
    default_value := pyGet data ("default_value") }

/-- `FacetDiscoveryEngine._reason_from_keywords` over a dynamically
typed facet: iterating a non-iterable `keywords` raises `TypeError`,
lowercasing a non-string keyword raises `AttributeError`. -/
def reasonFromKeywordsD (query : String) (f : FacetD)
    (selectedId : Option String) : Except PyErr String := do
  let kws ← pyIter f.keywords
  let hits ← kws.foldlM
    (fun acc kw =>
      match kw with
      | JVal.str s =>
          pure (if substrB (pyLower s) query then acc ++ [s] else acc)
      | _ => Except.error PyErr.attributeError)
    ([] : List String)
  if !hits.isEmpty then
    pure ("Matches keywords: " ++ String.intercalate (", ") hits)
  else
    match selectedId with
    | some i => pure ("Refines selection: " ++ i)
    | none => pure ("Default facet for this domain")

/-- `FacetDiscoveryEngine._parse_llm_payload` after JSON decoding:
unparseable text (`none`) and non-dict payloads degrade to `{}`. -/
def parseLlmPayload (decoded : Option JVal) : JObj :=
  match decoded with
  | some (JVal.obj kvs) => kvs
  | _ => []

/-- `FacetDiscoveryEngine._parse_llm_json` after JSON decoding: read
`facets`, degrade non-lists to `[]`, keep only dict-shaped items. -/
def parseLlmJson (decoded : Option JVal) : List JObj :=
  let data := parseLlmPayload decoded
  match pyGetD data ("facets") (JVal.arr []) with
  | JVal.arr items =>
      items.filterMap (fun it =>
        match it with
        | JVal.obj kvs => some kvs
        | _ => none)
  | _ => []

/-- The post-model part of `discover_round1_llm` (lines 162-170): parse
the decoded payload, truncate, materialise each facet and attach the
model's reason or a keyword-match reason. -/
def discoverRound1LlmParse (rawQuery : String) (maxFacets : Nat)
    (decoded : Option JVal) : Except PyErr (List CandidateD) :=
  ((parseLlmJson decoded).take maxFacets).mapM (fun item => do
    let facet ← toFacetD item
    let rv := pyGet item ("reason")
    let reason ←
      if truthy rv then pure rv
      else do
        let r ← reasonFromKeywordsD (pyLower rawQuery) facet none
        pure (JVal.str r)
    pure ({ facet := facet, reason := reason } : CandidateD))

/-- The post-model part of `discover_round2_llm` (lines 262-268). -/
def discoverRound2LlmParse (maxFacets : Nat) (decoded : Option JVal) :
    Except PyErr (List CandidateD) :=
  ((parseLlmJson decoded).take maxFacets).mapM (fun item => do
    let facet ← toFacetD item
    let rv := pyGet item ("reason")
    let reason := if truthy rv then rv
      else JVal.str ("Derived from user selections")
    pure ({ facet := facet, reason := reason } : CandidateD))

/-- A decoded value that equals the `"all options"` sentinel after
lowercasing (only strings can). -/
def isSentinelVal : JVal → Bool
  | JVal.str s => pyLower s == "all options"
  | _ => false

/-- A choice list contains exactly one case-insensitive `"all options"`
entry and that entry is last. -/
def choicesSentinelOnceLast (cs : List Choice) : Prop :=
  cs.countP (fun c => pyLower c.value == "all options") = 1 ∧
  (cs.getLast?).any (fun c => pyLower c.value == "all options") = true

/-- A suggested-values list contains exactly one case-insensitive
`"all options"` entry and that entry is last. -/
def valuesSentinelOnceLast (vs : List JVal) : Prop :=
  vs.countP isSentinelVal = 1 ∧ (vs.getLast?).any isSentinelVal = true

instance (cs : List Choice) : Decidable (choicesSentinelOnceLast cs) := by
  unfold choicesSentinelOnceLast
  infer_instance

instance (vs : List JVal) : Decidable (valuesSentinelOnceLast vs) := by
  unfold valuesSentinelOnceLast
  infer_instance

/-- A facet definition whose concrete choices already contain the
sentinel value (first, not last). -/
def sentinelCexData : JObj :=
  [("choices", JVal.arr [JVal.obj [("value", JVal.str ("all options"))],
                         JVal.obj [("value", JVal.str ("b"))]])]

/-! ## Schema-typed pipeline

Pack files, request rows and the deterministic pipeline operate on
well-typed JSON documents (data model §3), so they are embedded over
typed records. `toFacetOfDef` is `_to_facet` restricted to such
entries; `reasonFromKeywords` is `_reason_from_keywords` on facets
whose keyword list is a list of strings. -/

/-- A choice entry of a pack file: `{value, subchoices}`. -/
structure ChoiceDef where
  value : String
  subchoices : List String := []
  deriving DecidableEq

/-- A facet definition of a pack file (absent keys are `none`/`[]`). -/
structure FacetDef where
  id : Option String := none
  title : Option String := none
  question : Option String := none
  keywords : List String := []
  suggested_values : List String := []
  choices : List ChoiceDef := []
  default_value : Option String := none
  deriving DecidableEq

/-- A domain pack: `{keywords, facets, refinements}` (the `domain`
field is only interpolated into model prompts, which are external). -/
structure Pack where
  keywords : List String := []
  facets : List FacetDef := []
  refinements : List (String × List FacetDef) := []
  deriving DecidableEq

/-- The `Facet` dataclass as produced from a schema-typed definition. -/
structure Facet where
  id : String
  title : String
  question : String
  keywords : List String
  suggested_values : List String
  choices : List Choice
  default_value : Option String
  deriving DecidableEq

/-- The `FacetCandidate` dataclass over schema-typed facets. -/
structure Candidate where
  facet : Facet
  reason : String
  deriving DecidableEq

/-- `_to_facet` on a schema-typed definition: same computation as
`toFacetD`, with Python truthiness of strings made explicit. -/
def toFacetOfDef (d : FacetDef) : Facet :=
  let fid :=
    match d.id with
    | some s => if s ≠ "" then s else slugify (d.title.getD ("facet"))
    | none => slugify (d.title.getD ("facet"))
  let concrete := (d.choices.filter (fun c => c.value != "")).map
    (fun c => { value := c.value
                subchoices := c.subchoices.filter (fun v => v != "") : Choice })
  let choices2 :=
    if !concrete.isEmpty && concrete.all (fun c => pyLower c.value != "all options")
    then concrete ++ [{ value := "all options", subchoices := [] }]
    else concrete
  let sug1 :=
    if !choices2.isEmpty && d.suggested_values.isEmpty
    then choices2.map (fun c => c.value)
    else d.suggested_values
  let sug2 :=
    if !sug1.isEmpty && sug1.all (fun v => pyLower v != "all options")
    then sug1 ++ ["all options"]
    else sug1
  { id := fid
    title := d.title.getD fid
    question := d.question.getD ("Choose an option")
    keywords := d.keywords
    suggested_values := sug2
    choices := choices2
    default_value := d.default_value }

/-- `_reason_from_keywords` on a schema-typed facet. -/
def reasonFromKeywords (query : String) (f : Facet)
    (selectedId : Option String) : String :=
  let hits := f.keywords.filter (fun kw => substrB (pyLower kw) query)
  if !hits.isEmpty then
    "Matches keywords: " ++ String.intercalate (", ") hits
  else
    match selectedId with
    | some i => "Refines selection: " ++ i
    | none => "Default facet for this domain"

/-- `FacetDiscoveryEngine.discover_round1` (deterministic). -/
def discoverRound1 (rawQuery : String) (pack : Pack) : List Candidate :=
  pack.facets.map (fun d =>
    let f := toFacetOfDef d
    { facet := f, reason := reasonFromKeywords (pyLower rawQuery) f none })

/-- `FacetDiscoveryEngine.discover_round2` (deterministic): one
candidate per refinement facet of each selected id, missing refinement
entries degrade to the empty list. -/
def discoverRound2 (rawQuery : String) (pack : Pack)
    (selectedIds : List String) : List Candidate :=
  selectedIds.flatMap (fun sid =>
    ((pack.refinements.lookup sid).getD []).map (fun d =>
      let f := toFacetOfDef d
      { facet := f, reason := reasonFromKeywords (pyLower rawQuery) f (some sid) }))

/-! ## Domain router (`app/core/domain_router.py`)

The pack store is modelled as the association list of
`(pack_name, loaded pack)` pairs in `available_packs()` enumeration
order; `load_pack` on an enumerated name is the list lookup. -/

/-- Python truthiness filter of `if value:` on an optional string. -/
def optToTerms : Option String → List String
  | some v => if v ≠ "" then [v] else []
  | none => []

/-- `DomainRouter._pack_terms`: keywords, truthy facet titles and
questions, truthy choice values with their subchoices; then drop empty
terms and lowercase. -/
def packTerms (pack : Pack) : List String :=
  let terms := pack.keywords ++
    pack.facets.flatMap (fun fd =>
      optToTerms fd.title ++ optToTerms fd.question ++
      fd.choices.flatMap (fun c =>
        if c.value ≠ "" then c.value :: c.subchoices else []))
  ((terms.filter (fun t => t != "")).map pyLower)

/-- One pack's test inside the `domain_hint` loop of `choose_pack`:
name equality, substring in either direction, or the normalized hint
contained in a lowercased pack keyword. -/
def hintMatchesPack (normalized : String) (name : String) (pack : Pack) : Bool :=
  (normalized == name || substrB normalized name || substrB name normalized) ||
  pack.keywords.any (fun kw => substrB normalized (pyLower kw))

/-- The first enumerated pack the normalized hint matches. -/
def hintFirstMatch (packs : List (String × Pack)) (h : String) : Option String :=
  (packs.find? (fun np => hintMatchesPack (pyLower (pyStrip h)) np.1 np.2)).map
    (fun np => np.1)

/-- `choose_pack`'s scoring of one pack: how many searchable terms
occur in the lowercased query. -/
def packScore (pack : Pack) (queryLower : String) : Nat :=
  (packTerms pack).countP (fun term => term != "" && substrB term queryLower)

/-- The scoring fold of `choose_pack` (lines 46-59): best pack so far,
starting from `("universal", 0)`, skipping the universal pack,
updating only on a strictly higher score. -/
def scoreStep (queryLower : String) (acc : String × Nat) (np : String × Pack) :
    String × Nat :=
  if np.1 == "universal" then acc
  else
    let score := packScore np.2 queryLower
    if score > acc.2 then (np.1, score) else acc

/-- The result of the scoring loop of `choose_pack`. -/
def scoreLoop (packs : List (String × Pack)) (queryLower : String) : String :=
  (packs.foldl (scoreStep queryLower) ("universal", 0)).1

/-- `DomainRouter.choose_pack`. -/
def choosePack (packs : List (String × Pack)) (rawQuery : String)
    (domainHint : Option String) : String :=
  let hinted : Option String :=
    if optStrTruthy domainHint then
      match domainHint with
      | some h => hintFirstMatch packs h
      | none => none
    else none
  match hinted with
  | some name => name
  | none => scoreLoop packs (pyLower rawQuery)

/-- The one-pack store containing only the universal pack. -/
def packsCex : List (String × Pack) := [("universal", {})]

/-! ## Facet ranker (`app/core/facet_ranker.py`) -/

/-- The `(keyword_hits, has_defaults)` scoring pair of `FacetRanker.rank`
(keyword hits counted against the facet's own keyword list; the default
flag is Python truthiness of `default_value`). -/
def candidateScore (queryLower : String) (c : Candidate) : Nat × Nat :=
  (c.facet.keywords.countP (fun kw => substrB (pyLower kw) queryLower),
   if optStrTruthy c.facet.default_value then 1 else 0)

/-- Strict lexicographic `<` on Python pairs of naturals. -/
def pairLt (a b : Nat × Nat) : Bool :=
  a.1 < b.1 || (a.1 == b.1 && a.2 < b.2)

/-- The "may come first" relation realised by
`sorted(candidates, key=score, reverse=True)`: `a` may precede `b`
exactly when `a`'s score is not lexicographically below `b`'s. -/
def rankLe (queryLower : String) (a b : Candidate) : Bool :=
  !(pairLt (candidateScore queryLower a) (candidateScore queryLower b))

/-- `FacetRanker.rank`: Python's `sorted(key=score, reverse=True)` is
the stable descending sort, i.e. the stable merge sort under `rankLe`
(equal-score candidates keep their input order). -/
def rank (rawQuery : String) (candidates : List Candidate) : List Candidate :=
  candidates.mergeSort (rankLe (pyLower rawQuery))

/-- A scoreless candidate used in concrete ranking instances. -/
def candA : Candidate :=
  { facet := { id := "a", title := "A", question := "Q", keywords := [],
               suggested_values := [], choices := [], default_value := none }
    reason := "r" }

/-- A second scoreless candidate with a distinct id. -/
def candB : Candidate :=
  { facet := { id := "b", title := "B", question := "Q", keywords := [],
               suggested_values := [], choices := [], default_value := none }
    reason := "r" }

/-- `FacetRanker._parse_facet_order` after JSON decoding: unparseable
text or a non-dict payload gives `[]`, a non-list `facet_order` gives
`[]`, list entries are kept when truthy and pushed through `str`. -/
def parseFacetOrder (decoded : Option JVal) : List String :=
  match decoded with
  | some (JVal.obj kvs) =>
      match pyGetD kvs ("facet_order") (JVal.arr []) with
      | JVal.arr xs => (xs.filter truthy).map pyStr
      | _ => []
  | _ => []

/-- The `by_id` dict of `rank_with_llm`: the dict comprehension keeps
the last candidate per id, so indexing is the last filtered match. -/
def byIdLookup (cands : List Candidate) (i : String) : Option Candidate :=
  (cands.filter (fun c => c.facet.id == i)).getLast?

/-- `FacetRanker.rank_with_llm` after JSON decoding: empty input is
returned as is; an empty parsed order falls back to deterministic
`rank`; otherwise the mentioned ids come first in payload order and
unmentioned candidates are appended in input order. -/
def rankWithLlm (rawQuery : String) (cands : List Candidate)
    (decoded : Option JVal) : List Candidate :=
  if cands.isEmpty then cands
  else
    let order := parseFacetOrder decoded
    if order.isEmpty then rank rawQuery cands
    else
      let ordered := order.filterMap (byIdLookup cands)
      let missing := cands.filter (fun c => !(order.contains c.facet.id))
      ordered ++ missing

/-! ## Catalog search (`app/catalog/catalog_search.py`)

Service records come from the repository's `services.json`, so their
fields carry the declared types; absent keys are `none` (scalar
defaults are applied at each `.get`, as in the source). Python float
arithmetic on the fixed score constants is embedded over `ℚ`;
`float("inf")` (the default `max_revenue` / `max_employees`) is the
`none` case of the corresponding optional bound. -/

/-- The `eligibility` block of a service record. -/
structure Eligibility where
  min_years : Option ℚ := none
  max_years : Option ℚ := none
  min_revenue : Option ℚ := none
  max_revenue : Option ℚ := none
  min_employees : Option ℚ := none
  max_employees : Option ℚ := none
  profile : List String := []
  location : Option String := none
  deriving DecidableEq

/-- A service record (fields used by scoring). -/
structure Service where
  category : String := ""
  subcategory : String := ""
  tags : List String := []
  price : Option ℚ := none
  provider : Option String := none
  eligibility : Eligibility := {}
  deriving DecidableEq

/-- The parsed selection profile built by `_parse_selections`. -/
structure Parsed where
  years : Option ℚ := none
  revenue : Option ℚ := none
  employees : Option ℚ := none
  needs : List String := []
  profiles : List String := []
  location : Option String := none
  stage : Option String := none
  deriving DecidableEq

/-- The `needs_map` keyword table of `_parse_selections`. -/
def needsMap : List (String × List String) :=
  [("financement", ["financement", "prêt", "subvention", "investisseur", "garantie"]),
   ("formation", ["formation", "gestion", "digital", "commercial", "export"]),
   ("accompagnement", ["accompagnement", "mentorat", "coaching", "réseau", "conseil"]),
   ("recrutement", ["recrutement", "alternance", "stage", "cdi", "équipe"]),
   ("formalités", ["formalités", "création", "modification", "certifications"])]

/-- One iteration of `_parse_selections`' loop over the selections
dict: dispatch on the facet id and update the profile from fixed
substring tables over the lowercased value. -/
def parseStep (p : Parsed) (kv : String × Option String) : Parsed :=
  match kv.2 with
  | none => p
  | some value =>
      let v := pyLower value
      if kv.1 == "business_stage" then
        if substrB ("idée") v || substrB ("projet") v then
          { p with stage := some ("idée"), years := some 0 }
        else if substrB ("< 2 ans") v || substrB ("jeune") v then
          { p with stage := some ("jeune"), years := some 1 }
        else if substrB ("2-5 ans") v || substrB ("établie") v then
          { p with stage := some ("établie"), years := some 3 }
        else if substrB ("> 5 ans") v || substrB ("mature") v then
          { p with stage := some ("mature"), years := some 6 }
        else p
      else if kv.1 == "revenue_range" then
        if substrB ("pas encore") v then { p with revenue := some 0 }
        else if substrB ("moins de 50") v || substrB ("< 50") v then
          { p with revenue := some 25000 }
        else if substrB ("50 000") v && substrB ("100 000") v then
          { p with revenue := some 75000 }
        else if substrB ("100 000") v && substrB ("500 000") v then
          { p with revenue := some 250000 }
        else if substrB ("plus de 500") v || substrB ("> 500") v then
          { p with revenue := some 600000 }
        else p
      else if kv.1 == "employees" then
        if substrB ("solo") v || substrB ("seul") v then { p with employees := some 0 }
        else if substrB ("1 à 5") v || substrB ("1-5") v then
          { p with employees := some 3 }
        else if substrB ("6 à 20") v || substrB ("6-20") v then
          { p with employees := some 10 }
        else if substrB ("plus de 20") v || substrB ("> 20") v then
          { p with employees := some 25 }
        else p
      else if kv.1 == "main_need" then
        { p with needs := p.needs ++
            ((needsMap.filter (fun e => e.2.any (fun kw => substrB kw v))).map
              (fun e => e.1)) }
      else if kv.1 == "profile" then
        { p with profiles := p.profiles ++
            (if substrB ("femme") v then ["femme"] else []) ++
            (if substrB ("jeune") v || substrB ("< 26") v then ["jeune"] else []) ++
            (if substrB ("senior") v || substrB ("> 50") v then ["senior"] else []) ++
            (if substrB ("handicap") v || substrB ("rqth") v then ["handicap"] else []) ++
            (if substrB ("demandeur") v || substrB ("chômage") v then
              ["demandeur_emploi"] else []) ++
            (if substrB ("rsa") v then ["rsa"] else []) }
      else if kv.1 == "location" then
        if substrB ("île-de-france") v || substrB ("idf") v || substrB ("paris") v ||
            substrB ("93") v || substrB ("seine-saint-denis") v then
          { p with location := some ("ile-de-france") }
        else { p with location := some v }
      else p

/-- `CatalogSearch._parse_selections` over the selections dict items. -/
def parseSelections (selections : List (String × Option String)) : Parsed :=
  selections.foldl parseStep {}

/-- Years-in-business increment of `_calculate_match_score`
(`+0.15` inside the window, `-0.05` below the minimum). -/
def yearsBonus (elig : Eligibility) (p : Parsed) : ℚ :=
  match p.years with
  | none => 0
  | some y =>
      let mn := elig.min_years.getD 0
      let mx := elig.max_years.getD 100
      if mn ≤ y ∧ y ≤ mx then 0.15
      else if y < mn then -0.05
      else 0

/-- Revenue increment (`+0.15` inside the window, `+0.02` below the
minimum; an absent `max_revenue` is `float("inf")`). -/
def revenueBonus (elig : Eligibility) (p : Parsed) : ℚ :=
  match p.revenue with
  | none => 0
  | some r =>
      let mn := elig.min_revenue.getD 0
      match elig.max_revenue with
      | some mx => if mn ≤ r ∧ r ≤ mx then 0.15 else if r < mn then 0.02 else 0
      | none => if mn ≤ r then 0.15 else if r < mn then 0.02 else 0

/-- Employee-count increment (`+0.1` inside the window). -/
def employeesBonus (elig : Eligibility) (p : Parsed) : ℚ :=
  match p.employees with
  | none => 0
  | some e =>
      let mn := elig.min_employees.getD 0
      match elig.max_employees with
      | some mx => if mn ≤ e ∧ e ≤ mx then 0.1 else 0
      | none => if mn ≤ e then 0.1 else 0

/-- Profile-tag increment: `+0.25` per parsed profile tag found in the
service's profile eligibility list (guarded on both being nonempty). -/
def profileBonus (elig : Eligibility) (p : Parsed) : ℚ :=
  if elig.profile ≠ [] ∧ p.profiles ≠ [] then
    0.25 * ((p.profiles.filter (fun pr => elig.profile.contains pr)).length : ℚ)
  else 0

/-- Per-need increment: `+0.2` on a category or subcategory substring
hit, `+0.1` on a tag substring hit. -/
def needBonus (service : Service) (need : String) : ℚ :=
  (if substrB need service.category || substrB need service.subcategory then 0.2
   else 0) +
  (if service.tags.any (fun tag => substrB need tag) then 0.1 else 0)

/-- Needs increment accumulated over all parsed needs. -/
def needsBonus (service : Service) (p : Parsed) : ℚ :=
  (p.needs.map (needBonus service)).sum

/-- Location increment: `+0.05` for an `"all"` eligibility, `+0.15` for
a location containment hit, `+0.1` for a QPV-flagged eligibility. -/
def locationBonus (service : Service) (p : Parsed) : ℚ :=
  match p.location with
  | none => 0
  | some loc =>
      if loc ≠ "" then
        let le := (service.eligibility.location).getD ("all")
        if le == "all" then 0.05
        else if substrB loc (pyLower le) then 0.15
        else if substrB ("qpv") (pyLower le) then 0.1
        else 0
      else 0

/-- Free-service increment (`price` defaults to `0` when absent). -/
def priceBonus (service : Service) : ℚ :=
  if service.price.getD 0 = 0 then 0.05 else 0

/-- Flagship-provider increment. -/
def providerBonus (service : Service) : ℚ :=
  if service.provider = some ("Quartiers d\x27Affaires") then 0.1 else 0

/-- `CatalogSearch._calculate_match_score`: the `0.1` base plus the
sequential increments, capped at `1.0` by the final `min`. -/
def calcMatchScore (service : Service) (p : Parsed) : ℚ :=
  min (0.1 + yearsBonus service.eligibility p + revenueBonus service.eligibility p
        + employeesBonus service.eligibility p + profileBonus service.eligibility p
        + needsBonus service p + locationBonus service p
        + priceBonus service + providerBonus service) 1

/-- A service with an empty eligibility block, no price, no provider. -/
def freeService : Service := {}

/-! ## The `/refine` route (`app/api/routes.py`)

The request store is the list of request rows (`request_id` is the
primary key); the trace ledger side effect is returned as the list of
events appended by the call. The model-assisted branch's candidate
outcome (`discover_round2_llm` over the external generate call) is
passed in as `llmCands`; the claims settled here exercise only the
round-limit early return and the deterministic branch, both of which
are independent of it. -/

/-- The settings fields `refine` reads. -/
structure SettingsM where
  openai_api_key : Option String := none
  enable_llm_facet_proposals : Bool := false
  max_facet_questions : Nat := 10
  max_refine_rounds : Nat := 2

/-- One entry of the request payload's `facet_selections`. -/
structure FacetSelection where
  id : String
  value : Option String
  deriving DecidableEq

/-- The `RefineRequest` payload. -/
structure RefineReq where
  request_id : String
  refine_round : Nat
  facet_selections : List FacetSelection

/-- A stored request row. -/
structure RequestRow where
  request_id : String
  raw_query : String
  domain_pack : String

/-- The identifiable error conditions `refine` can raise. -/
inductive ApiError where
  | notFound
  | missingApiKey
  | unknownPack
  deriving DecidableEq

/-- The API-schema facet candidate built by `_serialize_candidates`. -/
structure SerializedCandidate where
  id : String
  title : String
  question : String
  reason : String
  suggested_values : List String
  choices : List Choice
  deriving DecidableEq

/-- `_serialize_candidates` on one candidate. -/
def serializeCandidate (c : Candidate) : SerializedCandidate :=
  { id := c.facet.id
    title := c.facet.title
    question := c.facet.question
    reason := c.reason
    suggested_values := c.facet.suggested_values
    choices := c.facet.choices }

/-- The `RefineResponse` schema. -/
structure RefineResponseM where
  facet_candidates : List SerializedCandidate
  why_these_facets : List String
  deriving DecidableEq

/-- A trace-ledger append performed by `refine` (payload fields of its
single `SUGGEST_FACETS` event). -/
structure RefEvent where
  request_id : String
  event_type : String
  round : Nat
  facet_ids : List String
  deriving DecidableEq

/-- One assignment of a Python dict comprehension: an existing key
keeps its position and takes the new value, a new key is appended. -/
def dictInsert (m : List (String × Option String)) (k : String)
    (v : Option String) : List (String × Option String) :=
  if m.any (fun kv => kv.1 == k) then
    m.map (fun kv => if kv.1 == k then (k, v) else kv)
  else m ++ [(k, v)]

/-- The dict `{selection.id: selection.value for selection in ...}`. -/
def selectionsDict (sels : List FacetSelection) : List (String × Option String) :=
  sels.foldl (fun m s => dictInsert m s.id s.value) []

/-- Lines 144-157 of `refine`, shared by both discovery branches: rank,
truncate, append the `SUGGEST_FACETS` event, build the response (an
empty shortlist gets the single default reason). -/
def emitCandidates (st : SettingsM) (requestId : String) (round : Nat)
    (rawQuery : String) (candidates : List Candidate) :
    RefineResponseM × List RefEvent :=
  let ranked := rank rawQuery candidates
  let limited := ranked.take st.max_facet_questions
  let ev : RefEvent :=
    { request_id := requestId
      event_type := "SUGGEST_FACETS"
      round := round
      facet_ids := limited.map (fun c => c.facet.id) }
  let why := if limited.isEmpty then ["No additional facets found"]
             else limited.map (fun c => c.reason)
  ({ facet_candidates := limited.map serializeCandidate
     why_these_facets := why }, [ev])

/-- The `/refine` route: unknown ids are a 404, a round beyond the
configured maximum returns the explicit empty response without
touching the ledger, the LLM branch requires a truthy API key, and the
deterministic branch with no selections falls back to the first
`max_facet_questions` refinement parent ids. -/
def refine (st : SettingsM) (requests : List RequestRow)
    (packs : List (String × Pack)) (llmCands : List Candidate) (p : RefineReq) :
    Except ApiError (RefineResponseM × List RefEvent) :=
  match requests.find? (fun r => r.request_id == p.request_id) with
  | none => .error ApiError.notFound
  | some request =>
      if p.refine_round > st.max_refine_rounds then
        .ok ({ facet_candidates := []
               why_these_facets := ["Max refine rounds reached"] }, [])
      else
        match packs.lookup request.domain_pack with
        | none => .error ApiError.unknownPack
        | some pack =>
            let selectedIds := (selectionsDict p.facet_selections).map (fun kv => kv.1)
            if st.enable_llm_facet_proposals then
              if optStrTruthy st.openai_api_key then
                .ok (emitCandidates st p.request_id p.refine_round
                      request.raw_query llmCands)
              else .error ApiError.missingApiKey
            else
              let ids :=
                if selectedIds.isEmpty then
                  (pack.refinements.map (fun kv => kv.1)).take st.max_facet_questions
                else selectedIds
              .ok (emitCandidates st p.request_id p.refine_round request.raw_query
                    (discoverRound2 request.raw_query pack ids))

/-- A one-refinement pack used to instantiate the fallback theorem. -/
def packR : Pack :=
  { refinements := [("base", [{ id := some ("ref1") }])] }

/-! ## Trace store and ledger (`app/storage/trace_store.py`,
`app/core/trace_ledger.py`)

The events table is the list of inserted rows in insertion order: the
`id INTEGER PRIMARY KEY AUTOINCREMENT` column is the insertion index
and `list_events` orders by it ascending, so a read-back is exactly
the filtered insertion order, and `add_event` only ever appends.
`TraceLedger.append` stamps each event with the current UTC time at
insertion; timestamps are abstracted as naturals and the monotone wall
clock is the hypothesis that every already-stored row carries a stamp
no later than the appended one. -/

/-- A row of the `events` table. -/
structure EventRow where
  request_id : String
  event_type : String
  data_json : String
  created_at : Nat
  deriving DecidableEq

/-- A dict returned by `list_events` (`data` kept as its stored JSON
text). -/
structure TraceEventOut where
  event_type : String
  data_json : String
  timestamp : Nat
  deriving DecidableEq

/-- The per-row shape conversion of `list_events`. -/
def rowToEvent (r : EventRow) : TraceEventOut :=
  { event_type := r.event_type, data_json := r.data_json, timestamp := r.created_at }

/-- `TraceStore.list_events`: the rows of one request in ascending
insertion-id order. -/
def listEvents (rows : List EventRow) (rid : String) : List TraceEventOut :=
  (rows.filter (fun r => r.request_id == rid)).map rowToEvent

/-- `TraceStore.add_event`: a new row gets the next autoincrement id,
i.e. it is appended after every stored row. -/
def addEvent (rows : List EventRow) (r : EventRow) : List EventRow :=
  rows ++ [r]

/-- C1: the claim says LLM-assisted discovery never raises and that
arbitrarily-shaped model JSON degrades to an empty or smaller candidate
list. The code contradicts this: the well-formed JSON model output
`{"facets": [{"title": 5}]}` decodes successfully, survives
`_parse_llm_json` (the item is dict-shaped), and then
`_to_facet` → `_slugify` calls `.lower()` on the integer title, raising
`AttributeError` out of `discover_round1_llm`. This theorem evaluates
the embedded code at that failing input. -/
theorem discoverRound1Llm_raises_on_malformed_payload :
    discoverRound1LlmParse ("How do I register a bakery?") 10
      (some (JVal.obj [("facets", JVal.arr [JVal.obj [("title", JVal.num 5)]])]))
      = Except.error PyErr.attributeError := rfl

lemma bindOkElim {α β : Type} {x : Except PyErr α} {g : α → Except PyErr β}
    {b : β} (h : x >>= g = Except.ok b) :
    ∃ a, x = Except.ok a ∧ g a = Except.ok b := by
  cases x with
  | error e => exact absurd h (fun h => Except.noConfusion h)
  | ok a => exact ⟨a, rfl, h⟩

lemma addSentinelChoices_of_clean {cs : List Choice} (hne : cs ≠ [])
    (hclean : ∀ c ∈ cs, pyLower c.value ≠ "all options") :
    addSentinelChoices cs = cs ++ [{ value := "all options", subchoices := [] }] := by
  unfold addSentinelChoices
  rw [if_pos]
  rw [Bool.and_eq_true, List.all_eq_true]
  refine ⟨by simpa using hne, fun c hc => ?_⟩
  simpa using hclean c hc

lemma choicesSentinelOnceLast_append {cs : List Choice}
    (hclean : ∀ c ∈ cs, pyLower c.value ≠ "all options") :
    choicesSentinelOnceLast (cs ++ [{ value := "all options", subchoices := [] }]) := by
  constructor
  · rw [List.countP_append]
    have h0 : cs.countP (fun c => pyLower c.value == "all options") = 0 := by
      rw [List.countP_eq_zero]
      intro c hc
      simpa using hclean c hc
    rw [h0]
    simp [List.countP_cons]
    decide
  · rw [List.getLast?_concat]
    simp [Option.any]
    decide

lemma valuesSentinelOnceLast_append {vs : List JVal}
    (hclean : ∀ v ∈ vs, isSentinelVal v = false) :
    valuesSentinelOnceLast (vs ++ [JVal.str ("all options")]) := by
  constructor
  · rw [List.countP_append]
    have h0 : vs.countP isSentinelVal = 0 := by
      rw [List.countP_eq_zero]
      intro v hv
      simp [hclean v hv]
    rw [h0]
    simp [List.countP_cons, isSentinelVal]
    decide
  · rw [List.getLast?_concat]
    simp [Option.any, isSentinelVal]
    decide

lemma allNotSentinelJ_of_clean {vs : List JVal}
    (h : ∀ v ∈ vs, ∃ s, v = JVal.str s ∧ pyLower s ≠ "all options") :
    allNotSentinelJ vs = .ok true := by
  induction vs with
  | nil => rfl
  | cons v rest ih =>
      obtain ⟨s, hv, hs⟩ := h v (List.mem_cons_self ..)
      subst hv
      unfold allNotSentinelJ
      rw [if_neg (by simpa using hs)]
      exact ih (fun w hw => h w (List.mem_cons_of_mem _ hw))

lemma allNotSentinelJ_append_sentinel {vs : List JVal}
    (h : ∀ v ∈ vs, ∃ s, v = JVal.str s ∧ pyLower s ≠ "all options") :
    allNotSentinelJ (vs ++ [JVal.str ("all options")]) = .ok false := by
  induction vs with
  | nil => rfl
  | cons v rest ih =>
      obtain ⟨s, hv, hs⟩ := h v (List.mem_cons_self ..)
      subst hv
      rw [List.cons_append]
      unfold allNotSentinelJ
      rw [if_neg (by simpa using hs)]
      exact ih (fun w hw => h w (List.mem_cons_of_mem _ hw))

lemma appendSentinelVals_of_clean {vs : List JVal} (hne : vs ≠ [])
    (h : ∀ v ∈ vs, ∃ s, v = JVal.str s ∧ pyLower s ≠ "all options") :
    appendSentinelVals vs = .ok (vs ++ [JVal.str ("all options")]) := by
  unfold appendSentinelVals
  rw [if_neg (by simpa using hne), allNotSentinelJ_of_clean h]
  rfl

lemma appendSentinelVals_of_sentinel_last {vs : List JVal}
    (h : ∀ v ∈ vs, ∃ s, v = JVal.str s ∧ pyLower s ≠ "all options") :
    appendSentinelVals (vs ++ [JVal.str ("all options")])
      = .ok (vs ++ [JVal.str ("all options")]) := by
  unfold appendSentinelVals
  rw [if_neg (by simp), allNotSentinelJ_append_sentinel h]
  rfl

/-- C3 (amended): for every facet definition yielding at least one
concrete choice, when no concrete choice value and no provided
suggested value is already the case-insensitive sentinel (suggested
values being strings), the materialized Facet's `choices` and
`suggested_values` each contain exactly one case-insensitive
`"all options"` entry and it is the last element. (The unamended claim
fails when the definition itself supplies a sentinel entry; see the
counterexample.) -/
theorem toFacet_sentinel_once_last (data : JObj) (f : FacetD)
    (cs : List Choice) (sug0 : List JVal)
    (hok : toFacetD data = .ok f)
    (hcs : buildChoices data = .ok cs)
    (hne : cs ≠ [])
    (hcns : ∀ c ∈ cs, pyLower c.value ≠ "all options")
    (hsug : pyIter (pyGetD data ("suggested_values") (JVal.arr [])) = .ok sug0)
    (hsns : ∀ v ∈ sug0, ∃ s, v = JVal.str s ∧ pyLower s ≠ "all options") :
    choicesSentinelOnceLast f.choices ∧ valuesSentinelOnceLast f.suggested_values := by
  have hadd := addSentinelChoices_of_clean hne hcns
  unfold toFacetD at hok
  obtain ⟨fid, hfid, hok⟩ := bindOkElim hok
  obtain ⟨cs1, hcs1, hok⟩ := bindOkElim hok
  rw [hcs] at hcs1
  injection hcs1 with hcs1
  subst hcs1
  obtain ⟨sug, hbs, hok⟩ := bindOkElim hok
  have hf : f = { id := fid
                  title := pyGetD data ("title") fid
                  question := pyGetD data ("question") (JVal.str ("Choose an option"))
                  keywords := pyGetD data ("keywords") (JVal.arr [])
                  suggested_values := sug
                  choices := addSentinelChoices cs
                  default_value := pyGet data ("default_value") } := by
    cases hok
    rfl
  subst hf
  have hmapclean : ∀ v ∈ cs.map (fun c => JVal.str c.value),
      ∃ s, v = JVal.str s ∧ pyLower s ≠ "all options" := by
    intro v hv
    obtain ⟨c, hc, rfl⟩ := List.mem_map.mp hv
    exact ⟨c.value, rfl, hcns c hc⟩
  constructor
  · show choicesSentinelOnceLast (addSentinelChoices cs)
    rw [hadd]
    exact choicesSentinelOnceLast_append hcns
  · show valuesSentinelOnceLast sug
    unfold buildSuggested at hbs
    obtain ⟨sug1, hsug1, hbs⟩ := bindOkElim hbs
    rw [hsug] at hsug1
    injection hsug1 with hsug1
    subst hsug1
    by_cases hemp : sug0 = []
    · subst hemp
      have hdef : defaultSuggested (addSentinelChoices cs) [] =
          cs.map (fun c => JVal.str c.value) ++ [JVal.str ("all options")] := by
        unfold defaultSuggested
        rw [hadd, if_pos (by simp)]
        simp
      rw [hdef, appendSentinelVals_of_sentinel_last hmapclean] at hbs
      injection hbs with hbs
      rw [← hbs]
      exact valuesSentinelOnceLast_append (by
        intro v hv
        obtain ⟨c, hc, rfl⟩ := List.mem_map.mp hv
        simp [isSentinelVal, hcns c hc])
    · have hdef : defaultSuggested (addSentinelChoices cs) sug0 = sug0 := by
        unfold defaultSuggested
        rw [if_neg (by simp [hemp])]
      rw [hdef, appendSentinelVals_of_clean hemp hsns] at hbs
      injection hbs with hbs
      rw [← hbs]
      exact valuesSentinelOnceLast_append (by
        intro v hv
        obtain ⟨s, rfl, hs⟩ := hsns v hv
        simp [isSentinelVal, hs])

/-- C3 counterexample: this facet definition yields two concrete choices
(so the claim as stated applies), yet the materialized facet's `choices`
and `suggested_values` have the sentinel first, not last, so the
claimed "exactly one sentinel entry, last element" property is false at
this input. -/
theorem toFacet_sentinel_counterexample :
    buildChoices sentinelCexData =
      Except.ok [{ value := "all options", subchoices := [] },
                 { value := "b", subchoices := [] }]
    ∧ (toFacetD sentinelCexData).map
        (fun f => decide (choicesSentinelOnceLast f.choices ∧
                          valuesSentinelOnceLast f.suggested_values))
      = Except.ok false :=
  ⟨rfl, rfl⟩

/-- Witness for C3: the amended theorem applied to a one-choice facet
definition; the materialized choices are `["paris", "all options"]` and
the conclusion evaluates. -/
theorem toFacet_sentinel_once_last_witness :
    choicesSentinelOnceLast
        [{ value := "paris", subchoices := [] },
         { value := "all options", subchoices := [] }] ∧
    valuesSentinelOnceLast [JVal.str ("paris"), JVal.str ("all options")] :=
  toFacet_sentinel_once_last
    [("choices", JVal.arr [JVal.obj [("value", JVal.str ("paris"))]])]
    { id := JVal.str ("facet")
      title := JVal.str ("facet")
      question := JVal.str ("Choose an option")
      keywords := JVal.arr []
      suggested_values := [JVal.str ("paris"), JVal.str ("all options")]
      choices := [{ value := "paris", subchoices := [] },
                  { value := "all options", subchoices := [] }]
      default_value := JVal.null }
    [{ value := "paris", subchoices := [] }] []
    rfl rfl (by decide) (by decide) rfl (by simp)

lemma mem_packTerms_ne_empty {pack : Pack} {t : String}
    (ht : t ∈ packTerms pack) : t ≠ "" := by
  unfold packTerms at ht
  obtain ⟨t0, ht0, rfl⟩ := List.mem_map.mp ht
  have h0 : t0 ≠ "" := by simpa using (List.mem_filter.mp ht0).2
  intro hcon
  apply h0
  unfold pyLower at hcon
  have : (⟨t0.data.map Char.toLower⟩ : String).data = [] := by rw [hcon]
  simp at this
  cases t0 with
  | mk l => simpa using congrArg String.mk this

lemma scoreLoop_ne_universal (queryLower : String) :
    ∀ (packs : List (String × Pack)) (acc : String × Nat),
      acc.1 ≠ "universal" → (packs.foldl (scoreStep queryLower) acc).1 ≠ "universal"
  | [], acc, h => h
  | np :: rest, acc, h => by
      rw [List.foldl_cons]
      apply scoreLoop_ne_universal
      unfold scoreStep
      by_cases hu : np.1 == "universal"
      · rw [if_pos hu]; exact h
      · rw [if_neg hu]
        by_cases hs : packScore np.2 queryLower > acc.2
        · rw [if_pos hs]; simpa using hu
        · rw [if_neg hs]; exact h

lemma scoreLoop_eq_universal_iff (queryLower : String) :
    ∀ (packs : List (String × Pack)),
      scoreLoop packs queryLower = "universal" ↔
        ∀ np ∈ packs, np.1 ≠ "universal" → packScore np.2 queryLower = 0
  | [] => by simp [scoreLoop]
  | np :: rest => by
      unfold scoreLoop
      rw [List.foldl_cons]
      by_cases hu : np.1 == "universal"
      · have hstep : scoreStep queryLower ("universal", 0) np = ("universal", 0) := by
          unfold scoreStep; rw [if_pos hu]
        rw [hstep]
        rw [show ((rest.foldl (scoreStep queryLower) ("universal", 0)).1 = "universal")
              ↔ (scoreLoop rest queryLower = "universal") from Iff.rfl,
            scoreLoop_eq_universal_iff queryLower rest]
        constructor
        · intro h np' hnp' hne
          rcases List.mem_cons.mp hnp' with rfl | hmem
          · exact absurd (by simpa using hu) hne
          · exact h np' hmem hne
        · intro h np' hnp' hne
          exact h np' (List.mem_cons_of_mem _ hnp') hne
      · by_cases hs : packScore np.2 queryLower > 0
        · have hstep : scoreStep queryLower ("universal", 0) np
              = (np.1, packScore np.2 queryLower) := by
            unfold scoreStep
            rw [if_neg hu, if_pos hs]
          rw [hstep]
          constructor
          · intro h
            exact absurd h (scoreLoop_ne_universal queryLower rest _ (by simpa using hu))
          · intro h
            have := h np (List.mem_cons_self ..) (by simpa using hu)
            omega
        · have hs0 : packScore np.2 queryLower = 0 := by omega
          have hstep : scoreStep queryLower ("universal", 0) np = ("universal", 0) := by
            unfold scoreStep
            rw [if_neg hu, if_neg hs]
          rw [hstep]
          rw [show ((rest.foldl (scoreStep queryLower) ("universal", 0)).1 = "universal")
                ↔ (scoreLoop rest queryLower = "universal") from Iff.rfl,
              scoreLoop_eq_universal_iff queryLower rest]
          constructor
          · intro h np' hnp' hne
            rcases List.mem_cons.mp hnp' with rfl | hmem
            · exact hs0
            · exact h np' hmem hne
          · intro h np' hnp' hne
            exact h np' (List.mem_cons_of_mem _ hnp') hne

lemma packScore_eq_zero_iff (pack : Pack) (queryLower : String) :
    packScore pack queryLower = 0 ↔
      ∀ t ∈ packTerms pack, substrB t queryLower = false := by
  unfold packScore
  rw [List.countP_eq_zero]
  constructor
  · intro h t ht
    have := h t ht
    have hne : (t != "") = true := by simpa using mem_packTerms_ne_empty ht
    simp [hne] at this
    simpa using this
  · intro h t ht
    simp [h t ht]

/-- C2 (amended): `choose_pack` returns `"universal"` iff either the
truthy domain_hint's first match in pack enumeration order is the pack
named `"universal"` itself, or there is no truthy-hint match at all and
no non-universal pack has a searchable term occurring in the lowercased
query. (The unamended claim — universal iff no term match and no hint
match — fails because the hint loop also enumerates the universal pack;
see the counterexample.) -/
theorem choosePack_universal_iff (packs : List (String × Pack)) (q : String)
    (hint : Option String) :
    choosePack packs q hint = "universal" ↔
      ((∃ h, hint = some h ∧ h ≠ "" ∧ hintFirstMatch packs h = some ("universal")) ∨
       ((∀ h, hint = some h → h ≠ "" → hintFirstMatch packs h = none) ∧
        ∀ np ∈ packs, np.1 ≠ "universal" →
          ∀ t ∈ packTerms np.2, substrB t (pyLower q) = false)) := by
  unfold choosePack
  cases hint with
  | none =>
      simp only [optStrTruthy, if_false, Bool.false_eq_true]
      rw [scoreLoop_eq_universal_iff]
      constructor
      · intro h
        exact Or.inr ⟨(by intro h' hcon; cases hcon),
          fun np hnp hne t ht => (packScore_eq_zero_iff np.2 (pyLower q)).mp (h np hnp hne) t ht⟩
      · rintro (⟨h', hcon, _⟩ | ⟨_, hterms⟩)
        · cases hcon
        · intro np hnp hne
          exact (packScore_eq_zero_iff np.2 (pyLower q)).mpr (hterms np hnp hne)
  | some h =>
      by_cases hne : h = ""
      · subst hne
        simp only [optStrTruthy, bne_self_eq_false, if_false, Bool.false_eq_true]
        rw [scoreLoop_eq_universal_iff]
        constructor
        · intro hh
          refine Or.inr ⟨?_, fun np hnp hnu t ht =>
            (packScore_eq_zero_iff np.2 (pyLower q)).mp (hh np hnp hnu) t ht⟩
          intro h' heq hne'
          injection heq with heq
          exact absurd heq.symm hne'
        · rintro (⟨h', heq, hne', _⟩ | ⟨_, hterms⟩)
          · injection heq with heq
            exact absurd heq.symm hne'
          · intro np hnp hnu
            exact (packScore_eq_zero_iff np.2 (pyLower q)).mpr (hterms np hnp hnu)
      · have htr : optStrTruthy (some h) = true := by simpa [optStrTruthy] using hne
        rw [htr]
        simp only [if_true]
        cases hfm : hintFirstMatch packs h with
        | some name =>
            simp only []
            constructor
            · intro hh
              exact Or.inl ⟨h, rfl, hne, by rw [hfm, hh]⟩
            · rintro (⟨h', heq, _, hmatch⟩ | ⟨hnone, _⟩)
              · injection heq with heq
                subst heq
                rw [hfm] at hmatch
                injection hmatch
              · exact absurd (hnone h rfl hne) (by rw [hfm]; intro hcon; cases hcon)
        | none =>
            simp only []
            rw [scoreLoop_eq_universal_iff]
            constructor
            · intro hh
              refine Or.inr ⟨fun h' heq _ => by injection heq with heq; rw [← heq]; exact hfm,
                fun np hnp hnu t ht =>
                  (packScore_eq_zero_iff np.2 (pyLower q)).mp (hh np hnp hnu) t ht⟩
            · rintro (⟨h', heq, _, hmatch⟩ | ⟨_, hterms⟩)
              · injection heq with heq
                subst heq
                rw [hfm] at hmatch
                cases hmatch
              · intro np hnp hnu
                exact (packScore_eq_zero_iff np.2 (pyLower q)).mpr (hterms np hnp hnu)

/-- C2 counterexample: with only the universal pack in the store and
`domain_hint = "universal"`, the hint matches a pack (name equality),
yet `choose_pack` still returns `"universal"`, so the claimed
equivalence (universal iff no term match and no hint match) is false at
this input. -/
theorem choosePack_claim_counterexample :
    ¬ ((choosePack packsCex ("") (some ("universal")) = "universal") ↔
       ((∀ np ∈ packsCex, np.1 ≠ "universal" →
           ∀ t ∈ packTerms np.2, substrB t (pyLower ("")) = false) ∧
        (∀ h, some ("universal") = some h →
           ∀ np ∈ packsCex, hintMatchesPack (pyLower (pyStrip h)) np.1 np.2 = false))) := by
  intro hcl
  have h1 : choosePack packsCex ("") (some ("universal")) = "universal" := rfl
  have h2 := (hcl.mp h1).2 ("universal") rfl ("universal", {}) (by simp [packsCex])
  exact absurd h2 (by decide)

/-- Witness for C2: the amended equivalence applied to a two-pack
store with no hint and a query containing no pack term. -/
theorem choosePack_universal_iff_witness :
    choosePack [("legal", { keywords := ["contract"] }), ("universal", {})]
      ("hello world") none = "universal" :=
  (choosePack_universal_iff
      [("legal", { keywords := ["contract"] }), ("universal", {})]
      ("hello world") none).mpr
    (Or.inr ⟨(by intro h hcon; cases hcon), (by decide)⟩)

lemma pairLt_iff (a b : Nat × Nat) :
    pairLt a b = true ↔ (a.1 < b.1 ∨ (a.1 = b.1 ∧ a.2 < b.2)) := by
  unfold pairLt
  simp

lemma rankLe_trans (q : String) (a b c : Candidate)
    (hab : rankLe q a b = true) (hbc : rankLe q b c = true) :
    rankLe q a c = true := by
  unfold rankLe at *
  rw [Bool.not_eq_true'] at *
  rw [← Bool.not_eq_true] at *
  rw [pairLt_iff] at *
  omega

lemma rankLe_total (q : String) (a b : Candidate) :
    (rankLe q a b || rankLe q b a) = true := by
  unfold rankLe
  rw [Bool.or_eq_true, Bool.not_eq_true', Bool.not_eq_true']
  rw [← Bool.not_eq_true, ← Bool.not_eq_true]
  rw [pairLt_iff, pairLt_iff]
  omega

lemma rank_perm (rawQuery : String) (cands : List Candidate) :
    (rank rawQuery cands).Perm cands :=
  List.mergeSort_perm cands (rankLe (pyLower rawQuery))

lemma rank_filter_eq (rawQuery : String) (cands : List Candidate) (k : Nat × Nat) :
    (rank rawQuery cands).filter
        (fun c => candidateScore (pyLower rawQuery) c == k)
      = cands.filter (fun c => candidateScore (pyLower rawQuery) c == k) := by
  set q := pyLower rawQuery with hq
  set p : Candidate → Bool := fun c => candidateScore q c == k with hp
  have hsubl : (cands.filter p).Sublist (rank rawQuery cands) := by
    apply List.sublist_mergeSort (rankLe_trans q) (rankLe_total q)
    · apply List.pairwise_of_forall_mem_list
      intro a ha b hb
      have hka : candidateScore q a = k := by
        simpa [hp] using (List.mem_filter.mp ha).2
      have hkb : candidateScore q b = k := by
        simpa [hp] using (List.mem_filter.mp hb).2
      unfold rankLe
      rw [Bool.not_eq_true', ← Bool.not_eq_true, pairLt_iff, hka, hkb]
      omega
    · exact List.filter_sublist cands
  have hsubf : (cands.filter p).Sublist ((rank rawQuery cands).filter p) := by
    have := List.Sublist.filter p hsubl
    rwa [List.filter_filter, show ((fun a => p a && p a) = p) from funext (fun a => Bool.and_self (p a))] at this
  have hlen : ((cands.filter p).length) = ((rank rawQuery cands).filter p).length :=
    (((rank_perm rawQuery cands).filter p).length_eq).symm ▸ rfl
  exact ((hsubf.eq_of_length hlen).symm)

lemma rank_fixed_of_equal_scores (rawQuery : String) (cands : List Candidate)
    (h : ∀ c ∈ cands, ∀ d ∈ cands,
        candidateScore (pyLower rawQuery) c = candidateScore (pyLower rawQuery) d) :
    rank rawQuery cands = cands := by
  cases cands with
  | nil => simp [rank]
  | cons c0 rest =>
      set q := pyLower rawQuery with hq
      set k := candidateScore q c0 with hk
      set p : Candidate → Bool := fun c => candidateScore q c == k with hp
      have hall : ∀ c ∈ c0 :: rest, p c = true := by
        intro c hc
        simp only [hp, beq_iff_eq, hk]
        exact h c hc c0 (List.mem_cons_self ..)
      have h1 : (c0 :: rest).filter p = c0 :: rest := List.filter_eq_self.mpr hall
      have h2 : (rank rawQuery (c0 :: rest)).filter p = rank rawQuery (c0 :: rest) := by
        apply List.filter_eq_self.mpr
        intro a ha
        exact hall a ((rank_perm rawQuery (c0 :: rest)).mem_iff.mp ha)
      have := rank_filter_eq rawQuery (c0 :: rest) k
      rw [h1, h2] at this
      exact this

/-- C7: deterministic `rank` orders candidates descending by the
`(keyword_hits_in_query, has_default_value)` pair (no later candidate
scores lexicographically above an earlier one), equal-score candidates
keep their relative input order (the filter at every score value is
unchanged), and on a list whose candidates all score equally `rank`
returns the input unchanged. -/
theorem rank_deterministic_spec (rawQuery : String) (cands : List Candidate) :
    List.Pairwise
        (fun a b => pairLt (candidateScore (pyLower rawQuery) a)
            (candidateScore (pyLower rawQuery) b) = false)
        (rank rawQuery cands)
    ∧ (∀ k : Nat × Nat,
        (rank rawQuery cands).filter
            (fun c => candidateScore (pyLower rawQuery) c == k)
          = cands.filter (fun c => candidateScore (pyLower rawQuery) c == k))
    ∧ ((∀ c ∈ cands, ∀ d ∈ cands,
          candidateScore (pyLower rawQuery) c = candidateScore (pyLower rawQuery) d) →
        rank rawQuery cands = cands) := by
  refine ⟨?_, rank_filter_eq rawQuery cands, rank_fixed_of_equal_scores rawQuery cands⟩
  have := List.sorted_mergeSort
    (rankLe_trans (pyLower rawQuery)) (rankLe_total (pyLower rawQuery)) cands
  exact this.imp (fun hab => by
    unfold rankLe at hab
    simpa using hab)

/-- Witness for C7: the fixed-point clause applied to two equal-score
candidates. -/
theorem rank_deterministic_spec_witness :
    rank ("hello") [candA, candB] = [candA, candB] :=
  (rank_deterministic_spec ("hello") [candA, candB]).2.2 (by decide)

lemma contains_iff_mem_str {l : List String} {a : String} :
    l.contains a = true ↔ a ∈ l := by
  simp [List.contains, List.elem_iff]

lemma byIdLookup_sound {cands : List Candidate} {i : String} {c : Candidate}
    (h : byIdLookup cands i = some c) : c ∈ cands ∧ c.facet.id = i := by
  unfold byIdLookup at h
  have hmem : c ∈ cands.filter (fun c => c.facet.id == i) :=
    List.mem_of_getLast?_eq_some h
  obtain ⟨hm, hp⟩ := List.mem_filter.mp hmem
  exact ⟨hm, by simpa using hp⟩

lemma filter_id_eq_self {cands : List Candidate}
    (hnd : (cands.map (fun c => c.facet.id)).Nodup)
    {x : Candidate} (hx : x ∈ cands) :
    cands.filter (fun c => c.facet.id == x.facet.id) = [x] := by
  induction cands with
  | nil => cases hx
  | cons y rest ih =>
      rw [List.map_cons, List.nodup_cons] at hnd
      rcases List.mem_cons.mp hx with rfl | hxr
      · rw [List.filter_cons_of_pos (by simp)]
        congr 1
        rw [List.filter_eq_nil_iff]
        intro c hc hcx
        have hcy : c.facet.id = x.facet.id := by simpa using hcx
        apply hnd.1
        rw [← hcy]
        exact List.mem_map_of_mem _ hc
      · rw [List.filter_cons_of_neg, ih hnd.2 hxr]
        intro hyx
        have hyx' : y.facet.id = x.facet.id := by simpa using hyx
        apply hnd.1
        rw [hyx']
        exact List.mem_map_of_mem _ hxr

lemma byIdLookup_self {cands : List Candidate}
    (hnd : (cands.map (fun c => c.facet.id)).Nodup)
    {x : Candidate} (hx : x ∈ cands) :
    byIdLookup cands (x.facet.id) = some x := by
  unfold byIdLookup
  rw [filter_id_eq_self hnd hx]
  rfl

lemma count_ordered_eq {cands : List Candidate} {order : List String}
    (hnd : (cands.map (fun c => c.facet.id)).Nodup) (hord : order.Nodup)
    (x : Candidate) :
    List.count x (order.filterMap (byIdLookup cands))
      = if x ∈ cands ∧ x.facet.id ∈ order then 1 else 0 := by
  rw [List.count_filterMap]
  by_cases hx : x ∈ cands
  · by_cases hio : x.facet.id ∈ order
    · rw [if_pos ⟨hx, hio⟩]
      have hcongr : ∀ i ∈ order,
          (byIdLookup cands i == some x) = true ↔ (i == x.facet.id) = true := by
        intro i hi
        by_cases hieq : i = x.facet.id
        · subst hieq
          simp [byIdLookup_self hnd hx]
        · rcases hlk : byIdLookup cands i with _ | c
          · simp [hieq]
          · have hci := (byIdLookup_sound hlk).2
            have hcx : ¬ (c = x) := by
              intro hcon
              subst hcon
              exact hieq hci.symm
            simp [hcx, hieq]
      rw [List.countP_congr hcongr]
      have hcount : List.countP (fun i => i == x.facet.id) order
          = List.count (x.facet.id) order := rfl
      rw [hcount]
      exact List.count_eq_one_of_mem hord hio
    · rw [if_neg (fun hc => hio hc.2)]
      rw [List.countP_eq_zero]
      intro i hi
      simp only [beq_iff_eq]
      intro hcon
      exact hio ((byIdLookup_sound hcon).2 ▸ hi)
  · rw [if_neg (fun hc => hx hc.1)]
    rw [List.countP_eq_zero]
    intro i hi
    simp only [beq_iff_eq]
    intro hcon
    exact hx (byIdLookup_sound hcon).1

/-- C6 (amended): deterministic `rank` always returns a permutation of
its input; `rank_with_llm` returns a permutation of its input whenever
the candidates carry pairwise distinct facet ids and the parsed model
order contains no duplicate id. (For arbitrary model payloads the claim
fails: a duplicated id in `facet_order` duplicates that candidate — see
the counterexample.) -/
theorem rankers_preserve_candidates :
    (∀ (rawQuery : String) (cands : List Candidate),
      (rank rawQuery cands).Perm cands)
    ∧ (∀ (rawQuery : String) (cands : List Candidate) (decoded : Option JVal),
        (cands.map (fun c => c.facet.id)).Nodup →
        (parseFacetOrder decoded).Nodup →
        (rankWithLlm rawQuery cands decoded).Perm cands) := by
  refine ⟨rank_perm, ?_⟩
  intro rawQuery cands decoded hnd hord
  unfold rankWithLlm
  by_cases hemp : cands.isEmpty
  · rw [if_pos hemp]
  · rw [if_neg hemp]
    by_cases hoemp : (parseFacetOrder decoded).isEmpty
    · rw [if_pos hoemp]
      exact rank_perm rawQuery cands
    · rw [if_neg hoemp]
      have hcnd : cands.Nodup := List.Nodup.of_map _ hnd
      rw [List.perm_iff_count]
      intro x
      rw [List.count_append,
        count_ordered_eq hnd hord x]
      by_cases hx : x ∈ cands
      · have hcnt : List.count x cands = 1 := List.count_eq_one_of_mem hcnd hx
        by_cases hio : x.facet.id ∈ (parseFacetOrder decoded)
        · rw [if_pos ⟨hx, hio⟩, hcnt]
          have hzero : List.count x
              (cands.filter (fun c => !((parseFacetOrder decoded).contains c.facet.id)))
              = 0 := by
            rw [List.count_eq_zero]
            intro hmem
            have hf := (List.mem_filter.mp hmem).2
            rw [Bool.not_eq_true'] at hf
            have htrue : (parseFacetOrder decoded).contains x.facet.id = true :=
              contains_iff_mem_str.mpr hio
            rw [hf] at htrue
            cases htrue
          rw [hzero]
        · rw [if_neg (fun hc => hio hc.2)]
          have hpred : (!((parseFacetOrder decoded).contains x.facet.id)) = true := by
            rw [Bool.not_eq_true']
            rw [← Bool.not_eq_true]
            intro hcon
            exact hio (contains_iff_mem_str.mp hcon)
          rw [Nat.zero_add]
          exact List.count_filter hpred
      · rw [if_neg (fun hc => hx hc.1)]
        have h0 : List.count x cands = 0 := List.count_eq_zero.mpr hx
        have h1 : List.count x
            (cands.filter (fun c => !((parseFacetOrder decoded).contains c.facet.id)))
            = 0 := by
          rw [List.count_eq_zero]
          intro hmem
          exact hx (List.mem_of_mem_filter hmem)
        rw [h0, h1]

/-- C6 counterexample: with a single candidate of id `"a"`, the model
payload `{"facet_order": ["a", "a"]}` parses to a duplicate order and
`rank_with_llm` emits the candidate twice, so ranking does not return a
permutation of its input for every model-returned order payload. -/
theorem rankWithLlm_duplicate_counterexample :
    rankWithLlm ("q") [candA]
        (some (JVal.obj [("facet_order", JVal.arr [JVal.str ("a"), JVal.str ("a")])]))
      = [candA, candA]
    ∧ ¬ (List.Perm [candA, candA] [candA]) := by
  refine ⟨rfl, ?_⟩
  intro h
  have := h.length_eq
  simp at this

/-- Witness for C6: both clauses applied to concrete inputs, the
model-assisted one at a duplicate-free payload. -/
theorem rankers_preserve_candidates_witness :
    (rank ("q") [candA, candB]).Perm [candA, candB]
    ∧ (rankWithLlm ("q") [candA]
        (some (JVal.obj [("facet_order", JVal.arr [JVal.str ("a")])]))).Perm [candA] :=
  ⟨rankers_preserve_candidates.1 ("q") [candA, candB],
   rankers_preserve_candidates.2 ("q") [candA]
     (some (JVal.obj [("facet_order", JVal.arr [JVal.str ("a")])]))
     (by decide) (by decide)⟩

lemma yearsBonus_bounds (elig : Eligibility) (p : Parsed) :
    -0.05 ≤ yearsBonus elig p ∧ yearsBonus elig p ≤ 0.15 := by
  unfold yearsBonus
  rcases p.years with _ | y
  · norm_num
  · simp only []
    split_ifs <;> norm_num

lemma revenueBonus_bounds (elig : Eligibility) (p : Parsed) :
    0 ≤ revenueBonus elig p ∧ revenueBonus elig p ≤ 0.15 := by
  unfold revenueBonus
  rcases p.revenue with _ | r
  · norm_num
  · rcases elig.max_revenue with _ | mx <;> simp only [] <;> split_ifs <;> norm_num

lemma employeesBonus_bounds (elig : Eligibility) (p : Parsed) :
    0 ≤ employeesBonus elig p ∧ employeesBonus elig p ≤ 0.1 := by
  unfold employeesBonus
  rcases p.employees with _ | e
  · norm_num
  · rcases elig.max_employees with _ | mx <;> simp only [] <;> split_ifs <;> norm_num

lemma profileBonus_nonneg (elig : Eligibility) (p : Parsed) :
    0 ≤ profileBonus elig p := by
  unfold profileBonus
  split_ifs
  · positivity
  · norm_num

lemma needsBonus_nonneg (service : Service) (p : Parsed) :
    0 ≤ needsBonus service p := by
  unfold needsBonus
  apply List.sum_nonneg
  intro x hx
  obtain ⟨need, _, rfl⟩ := List.mem_map.mp hx
  unfold needBonus
  split_ifs <;> norm_num

lemma locationBonus_nonneg (service : Service) (p : Parsed) :
    0 ≤ locationBonus service p := by
  unfold locationBonus
  rcases p.location with _ | loc
  · norm_num
  · simp only []
    split_ifs <;> norm_num

lemma priceBonus_nonneg (service : Service) : 0 ≤ priceBonus service := by
  unfold priceBonus
  split_ifs <;> norm_num

lemma providerBonus_nonneg (service : Service) : 0 ≤ providerBonus service := by
  unfold providerBonus
  split_ifs <;> norm_num

/-- C4: for every service record and every parsed selection profile,
`_calculate_match_score` lies in the closed interval `[0, 1]`: the only
negative increment is a single `-0.05` against the `0.1` base, and the
final `min` caps the score at `1`. -/
theorem calcMatchScore_mem_unit_interval (service : Service) (p : Parsed) :
    0 ≤ calcMatchScore service p ∧ calcMatchScore service p ≤ 1 := by
  unfold calcMatchScore
  constructor
  · apply le_min _ (by norm_num)
    have h1 := (yearsBonus_bounds service.eligibility p).1
    have h2 := (revenueBonus_bounds service.eligibility p).1
    have h3 := (employeesBonus_bounds service.eligibility p).1
    have h4 := profileBonus_nonneg service.eligibility p
    have h5 := needsBonus_nonneg service p
    have h6 := locationBonus_nonneg service p
    have h7 := priceBonus_nonneg service
    have h8 := providerBonus_nonneg service
    nlinarith
  · exact min_le_right _ _

/-- C5 counterexample: a service with an empty eligibility block and no
matching selections (`parseSelections []` has no bucket, need, profile
or location signal) scores `0.15`, not the claimed exact `0.1` base:
the free-price increment (`price` absent defaults to `0`) still
applies. -/
theorem score_base_counterexample :
    freeService.eligibility = ({} : Eligibility)
    ∧ parseSelections [] = ({} : Parsed)
    ∧ calcMatchScore freeService (parseSelections []) = 0.15
    ∧ (0.15 : ℚ) ≠ 0.1 := by
  refine ⟨rfl, rfl, ?_, by norm_num⟩
  show calcMatchScore freeService {} = 0.15
  unfold calcMatchScore yearsBonus revenueBonus employeesBonus profileBonus
    needsBonus locationBonus priceBonus providerBonus freeService
  rw [if_neg (fun h => Option.noConfusion h)]
  norm_num [min_def]

/-- C5 (amended): an offering with an empty eligibility block, a
nonzero price and a non-flagship provider, scored against selections
whose parsed profile carries no signal, scores exactly the `0.1` base.
(The unamended claim fails for free offerings: the `+0.05` free-price
increment is service-side, not selection-side; see the
counterexample.) -/
theorem score_base_when_unmatched (service : Service)
    (sels : List (String × Option String))
    (helig : service.eligibility = ({} : Eligibility))
    (hprice : service.price.getD 0 ≠ 0)
    (hprov : service.provider ≠ some ("Quartiers d\x27Affaires"))
    (hparse : parseSelections sels = ({} : Parsed)) :
    calcMatchScore service (parseSelections sels) = 0.1 := by
  rw [hparse]
  unfold calcMatchScore
  rw [helig]
  have hy : yearsBonus {} {} = 0 := rfl
  have hr : revenueBonus {} {} = 0 := rfl
  have he : employeesBonus {} {} = 0 := rfl
  have hp : profileBonus {} {} = 0 := rfl
  have hn : needsBonus service {} = 0 := rfl
  have hl : locationBonus service {} = 0 := rfl
  have hpr : priceBonus service = 0 := by
    unfold priceBonus
    rw [if_neg hprice]
  have hpv : providerBonus service = 0 := by
    unfold providerBonus
    rw [if_neg hprov]
  rw [hy, hr, he, hp, hn, hl, hpr, hpv]
  norm_num [min_def]

/-- Witness for C5: the amended theorem applied to a paid service with
an empty eligibility block and empty selections. -/
theorem score_base_when_unmatched_witness :
    calcMatchScore { price := some 100, provider := some ("X") } (parseSelections [])
      = 0.1 :=
  score_base_when_unmatched { price := some 100, provider := some ("X") } []
    rfl (by norm_num) (by simp) rfl

/-- C8: for every existing request, a `refine` call with `refine_round`
strictly above the configured `max_refine_rounds` returns an empty
candidate list with exactly one explanatory reason string and appends
no trace event. -/
theorem refine_round_limit_empty (st : SettingsM) (requests : List RequestRow)
    (packs : List (String × Pack)) (llmCands : List Candidate) (p : RefineReq)
    (req : RequestRow)
    (hreq : requests.find? (fun r => r.request_id == p.request_id) = some req)
    (hround : p.refine_round > st.max_refine_rounds) :
    refine st requests packs llmCands p =
      .ok ({ facet_candidates := []
             why_these_facets := ["Max refine rounds reached"] }, []) := by
  unfold refine
  rw [hreq]
  simp only [if_pos hround]

/-- Witness for C8: a concrete over-limit call against a one-row store. -/
theorem refine_round_limit_empty_witness :
    refine {} [{ request_id := "r1", raw_query := "q", domain_pack := "universal" }]
        [] [] { request_id := "r1", refine_round := 3, facet_selections := [] } =
      .ok ({ facet_candidates := []
             why_these_facets := ["Max refine rounds reached"] }, []) :=
  refine_round_limit_empty {}
    [{ request_id := "r1", raw_query := "q", domain_pack := "universal" }]
    [] [] { request_id := "r1", refine_round := 3, facet_selections := [] }
    { request_id := "r1", raw_query := "q", domain_pack := "universal" }
    rfl (by decide)

lemma selectionsDict_aux (sels : List FacetSelection) :
    ∀ (acc : List (String × Option String)),
      (∀ s ∈ sels, ∀ kv ∈ acc, kv.1 ≠ s.id) →
      ((sels.map (fun s => s.id)).Nodup) →
      sels.foldl (fun m s => dictInsert m s.id s.value) acc
        = acc ++ sels.map (fun s => (s.id, s.value)) := by
  induction sels with
  | nil => intro acc _ _; simp
  | cons s rest ih =>
      intro acc hdisj hnd
      rw [List.foldl_cons]
      have hins : dictInsert acc s.id s.value = acc ++ [(s.id, s.value)] := by
        unfold dictInsert
        rw [if_neg]
        rw [List.any_eq_true]
        rintro ⟨kv, hkv, hbeq⟩
        exact hdisj s (List.mem_cons_self ..) kv hkv (beq_iff_eq.mp hbeq)
      rw [hins]
      rw [List.map_cons, List.nodup_cons] at hnd
      rw [ih (acc ++ [(s.id, s.value)]) ?_ hnd.2]
      · simp
      · intro t ht kv hkv
        rcases List.mem_append.mp hkv with hkv | hkv
        · exact hdisj t (List.mem_cons_of_mem _ ht) kv hkv
        · rw [List.mem_singleton] at hkv
          subst hkv
          intro hcon
          apply hnd.1
          rw [show s.id = t.id from hcon]
          exact List.mem_map_of_mem _ ht

lemma selectionsDict_of_nodup (sels : List FacetSelection)
    (h : (sels.map (fun s => s.id)).Nodup) :
    selectionsDict sels = sels.map (fun s => (s.id, s.value)) := by
  have := selectionsDict_aux sels [] (by simp) h
  simpa [selectionsDict] using this

lemma refine_nonllm_eval (st : SettingsM) (requests : List RequestRow)
    (packs : List (String × Pack)) (llmCands : List Candidate) (p : RefineReq)
    (req : RequestRow) (pack : Pack)
    (hllm : st.enable_llm_facet_proposals = false)
    (hreq : requests.find? (fun r => r.request_id == p.request_id) = some req)
    (hround : ¬ p.refine_round > st.max_refine_rounds)
    (hpack : packs.lookup req.domain_pack = some pack) :
    refine st requests packs llmCands p =
      .ok (emitCandidates st p.request_id p.refine_round req.raw_query
        (discoverRound2 req.raw_query pack
          (if ((selectionsDict p.facet_selections).map (fun kv => kv.1)).isEmpty then
             (pack.refinements.map (fun kv => kv.1)).take st.max_facet_questions
           else (selectionsDict p.facet_selections).map (fun kv => kv.1)))) := by
  unfold refine
  rw [hreq]
  simp only [if_neg hround]
  rw [hpack]
  simp only [hllm, Bool.false_eq_true, if_false]

/-- C10: in deterministic (non-LLM) mode, `refine` on an existing
request with an empty `facet_selections` list does not treat the call
as selection-free: it behaves exactly as if the first
`max_facet_questions` refinement parent ids of the pack (in pack
enumeration order) had been selected, and — whenever that truncated
fallback has at least one nonempty refinement list and the question
limit is positive — the response's candidate list is nonempty. -/
theorem refine_empty_selections_fallback (st : SettingsM)
    (requests : List RequestRow) (packs : List (String × Pack))
    (llmCands : List Candidate) (p : RefineReq) (req : RequestRow) (pack : Pack)
    (hllm : st.enable_llm_facet_proposals = false)
    (hreq : requests.find? (fun r => r.request_id == p.request_id) = some req)
    (hround : ¬ p.refine_round > st.max_refine_rounds)
    (hpack : packs.lookup req.domain_pack = some pack)
    (hnd : ((pack.refinements.map (fun kv => kv.1)).Nodup))
    (hsel : p.facet_selections = []) :
    (refine st requests packs llmCands p =
      refine st requests packs llmCands
        { p with facet_selections :=
            (((pack.refinements.map (fun kv => kv.1)).take st.max_facet_questions).map
              (fun i => { id := i, value := none })) })
    ∧ ((0 < st.max_facet_questions ∧
        ∃ sid ∈ (pack.refinements.map (fun kv => kv.1)).take st.max_facet_questions,
          (pack.refinements.lookup sid).getD [] ≠ []) →
       ∀ out, refine st requests packs llmCands p = Except.ok out →
         out.1.facet_candidates ≠ []) := by
  have hids0 : (selectionsDict p.facet_selections).map (fun kv => kv.1) = [] := by
    rw [hsel]
    rfl
  have h1 := refine_nonllm_eval st requests packs llmCands p req pack
    hllm hreq hround hpack
  rw [hids0] at h1
  simp only [List.isEmpty_nil, if_true] at h1
  constructor
  · have hndtake : ((pack.refinements.map (fun kv => kv.1)).take
        st.max_facet_questions).Nodup :=
      List.Nodup.sublist (List.take_sublist _ _) hnd
    have hnd' : ((((pack.refinements.map (fun kv => kv.1)).take
          st.max_facet_questions).map
          (fun i => ({ id := i, value := none } : FacetSelection))).map
          (fun s => s.id)).Nodup := by
      rw [List.map_map]
      simpa using hndtake
    have h2 := refine_nonllm_eval st requests packs llmCands
      { p with facet_selections :=
          (((pack.refinements.map (fun kv => kv.1)).take st.max_facet_questions).map
            (fun i => { id := i, value := none })) }
      req pack hllm hreq hround hpack
    have hRsel : (selectionsDict
        (((pack.refinements.map (fun kv => kv.1)).take st.max_facet_questions).map
          (fun i => ({ id := i, value := none } : FacetSelection)))).map
        (fun kv => kv.1)
        = (pack.refinements.map (fun kv => kv.1)).take st.max_facet_questions := by
      rw [selectionsDict_of_nodup _ hnd']
      simp [Function.comp_def]
    dsimp only at h2
    rw [hRsel, ite_self] at h2
    rw [h1, h2]
  · rintro ⟨hmaxq, sid, hsid, hlk⟩ out hout
    rw [h1] at hout
    injection hout with hout
    rw [← hout]
    have hcne : discoverRound2 req.raw_query pack
        ((pack.refinements.map (fun kv => kv.1)).take st.max_facet_questions)
        ≠ [] := by
      unfold discoverRound2
      intro hcon
      rw [List.flatMap_eq_nil_iff] at hcon
      have hm := hcon sid hsid
      rw [List.map_eq_nil_iff] at hm
      exact hlk hm
    have hrne : rank req.raw_query (discoverRound2 req.raw_query pack
        ((pack.refinements.map (fun kv => kv.1)).take st.max_facet_questions))
        ≠ [] := by
      intro hcon
      apply hcne
      have hlen := (rank_perm req.raw_query (discoverRound2 req.raw_query pack
        ((pack.refinements.map (fun kv => kv.1)).take
          st.max_facet_questions))).length_eq
      rw [hcon] at hlen
      exact List.length_eq_zero.mp hlen.symm
    unfold emitCandidates
    simp only []
    rw [Ne, List.map_eq_nil_iff]
    intro hcon
    have hlen := congrArg List.length hcon
    rw [List.length_take] at hlen
    simp only [List.length_nil] at hlen
    rcases Nat.min_eq_zero_iff.mp hlen with hz | hz
    · omega
    · exact hrne (List.length_eq_zero.mp hz)

/-- Witness for C10: the as-if-selected equivalence at a concrete
store, pack and empty-selection payload. -/
theorem refine_empty_selections_fallback_witness :
    refine { enable_llm_facet_proposals := false }
        [{ request_id := "r1", raw_query := "q", domain_pack := "p" }]
        [("p", packR)] []
        { request_id := "r1", refine_round := 1, facet_selections := [] } =
      refine { enable_llm_facet_proposals := false }
        [{ request_id := "r1", raw_query := "q", domain_pack := "p" }]
        [("p", packR)] []
        { request_id := "r1", refine_round := 1,
          facet_selections := [{ id := "base", value := none }] } :=
  (refine_empty_selections_fallback { enable_llm_facet_proposals := false }
    [{ request_id := "r1", raw_query := "q", domain_pack := "p" }]
    [("p", packR)] []
    { request_id := "r1", refine_round := 1, facet_selections := [] }
    { request_id := "r1", raw_query := "q", domain_pack := "p" } packR
    rfl rfl (by decide) rfl (by decide) rfl).1

/-- C9: `list_events` is a pure function of the stored rows (repeated
calls return the same sequence), an `append` only extends a request's
read-back sequence (the previous sequence is a prefix of the new one,
never reordered), and — with `append` stamping the current UTC time,
modelled by the non-decreasing clock hypotheses — the timestamps along
any read-back are non-decreasing. -/
theorem listEvents_append_only (rows : List EventRow) (r : EventRow) (rid : String)
    (hmono : rows.Pairwise (fun a b => a.created_at ≤ b.created_at))
    (hclock : ∀ a ∈ rows, a.created_at ≤ r.created_at) :
    (listEvents rows rid) <+: (listEvents (addEvent rows r) rid)
    ∧ (listEvents (addEvent rows r) rid).Pairwise
        (fun a b => a.timestamp ≤ b.timestamp) := by
  constructor
  · unfold listEvents addEvent
    rw [List.filter_append, List.map_append]
    exact List.prefix_append _ _
  · have hmono' : (addEvent rows r).Pairwise
        (fun a b => a.created_at ≤ b.created_at) := by
      unfold addEvent
      rw [List.pairwise_append]
      exact ⟨hmono, List.pairwise_singleton _ _,
        fun a ha b hb => by rw [List.mem_singleton] at hb; rw [hb]; exact hclock a ha⟩
    unfold listEvents
    rw [List.pairwise_map]
    exact List.Pairwise.sublist (List.filter_sublist _) hmono'

/-- Witness for C9: a two-row store with one matching row, extended by
one more matching row. -/
theorem listEvents_append_only_witness :
    (listEvents
        [{ request_id := "r1", event_type := "DETECT_DOMAIN", data_json := "d1",
           created_at := 1 },
         { request_id := "r2", event_type := "DETECT_DOMAIN", data_json := "d2",
           created_at := 2 }] ("r1")) <+:
      (listEvents (addEvent
        [{ request_id := "r1", event_type := "DETECT_DOMAIN", data_json := "d1",
           created_at := 1 },
         { request_id := "r2", event_type := "DETECT_DOMAIN", data_json := "d2",
           created_at := 2 }]
        { request_id := "r1", event_type := "SUGGEST_FACETS", data_json := "d3",
          created_at := 3 }) ("r1"))
    ∧ (listEvents (addEvent
        [{ request_id := "r1", event_type := "DETECT_DOMAIN", data_json := "d1",
           created_at := 1 },
         { request_id := "r2", event_type := "DETECT_DOMAIN", data_json := "d2",
           created_at := 2 }]
        { request_id := "r1", event_type := "SUGGEST_FACETS", data_json := "d3",
          created_at := 3 }) ("r1")).Pairwise
        (fun a b => a.timestamp ≤ b.timestamp) :=
  listEvents_append_only
    [{ request_id := "r1", event_type := "DETECT_DOMAIN", data_json := "d1",
       created_at := 1 },
     { request_id := "r2", event_type := "DETECT_DOMAIN", data_json := "d2",
       created_at := 2 }]
    { request_id := "r1", event_type := "SUGGEST_FACETS", data_json := "d3",
      created_at := 3 }
    ("r1") (by decide) (by decide)

end Funnel
